import Mathlib

/-!
Verification development for the open_deep_research orchestration core.

The definitions below are a shallow embedding of the TypeScript sources:

* `src/src/lib/overrideValue.ts` — the override-merge reducer;
* `src/src/lib/runToolSafely.ts` — safe tool invocation;
* `src/src/lib/getNotesFromToolCalls.ts` — tool-result collection;
* `src/unnamed/part_004` — `removeAfterLastAiMessage`;
* `src/src/graphs/researcher.ts` — the researcher state machine
  (`researcher`, `researcherTools`, `compressResearch` nodes);
* `src/src/graphs/supervisor.ts` — the supervisor state machine
  (`supervisor`, `supervisorTools` nodes);
* `src/src/graphs/deepResearcher.ts` — `finalReportGeneration` and the
  `MODEL_TOKEN_LIMITS` table from `src/unnamed` utils.

Conventions of the embedding:

* Message contents are strings (every message built by the orchestration
  core carries a string body; `messageContentToString` is the identity on
  strings), so `Message.content : String`.
* LangGraph channel values are stored post-reducer: a field whose reducer
  is `reduceOverrideValue` is stored as a plain list, and every update is
  applied as `reduceOverrideValue (.plain current) update`, exactly as the
  framework does.
* The model gateway and the tool runtime are external collaborators; they
  are abstracted as oracle functions in the machine configurations, and
  their failures are pre-classified outcomes (`InvokeOutcome`).
* JavaScript exceptions thrown by a node are modelled with
  `Except String`; a total Lean function models a node that cannot throw.
-/

/-! ## Conversation messages (data model of §3) -/

inductive MessageRole where
  | human
  | system
  | ai
  | tool
deriving DecidableEq, Repr

structure ToolCall where
  name : String
  /-- The argument payload; for `ConductResearch` calls this is the
  `researchTopic` string, otherwise it is opaque. -/
  args : String
  id : Option String
deriving DecidableEq, Repr

structure Message where
  role : MessageRole
  content : String
  toolCalls : List ToolCall := []
  name : Option String := none
  toolCallId : Option String := none
deriving DecidableEq, Repr

instance : Inhabited Message :=
  ⟨{ role := .human, content := "", toolCalls := [], name := none, toolCallId := none }⟩

def isAIMessage (m : Message) : Bool := m.role == .ai

def isToolMessage (m : Message) : Bool := m.role == .tool

def aiMessage (content : String) (toolCalls : List ToolCall) : Message :=
  { role := .ai, content := content, toolCalls := toolCalls, name := none, toolCallId := none }

def mkToolMessage (content toolName id : String) : Message :=
  { role := .tool, content := content, toolCalls := [], name := some toolName,
    toolCallId := some id }

/-! ## Override-merge value (`src/src/lib/overrideValue.ts`)

`OptionalOverrideValue<T> = T | OverrideValue<T>`: a value is either an
untagged (plain) payload or a payload wrapped in a `type: 'override'` tag.
`reduceOverrideValue` returns a bare `T[]`, i.e. an untagged list; when its
result is fed back into a merge it therefore re-enters as a plain value. -/

inductive OptionalOverrideValue (α : Type) where
  | plain (value : List α)
  | override (value : List α)
deriving DecidableEq, Repr

def isOverrideValue {α : Type} : OptionalOverrideValue α → Bool
  | .override _ => true
  | .plain _ => false

def getOverrideValue {α : Type} : OptionalOverrideValue α → List α
  | .override value => value
  | .plain value => value

def reduceOverrideValue {α : Type}
    (currentValue newValue : OptionalOverrideValue α) : List α :=
  match newValue with
  | .override value => value
  | .plain value => getOverrideValue currentValue ++ value

/-- The left-nested double merge `reduceOverrideValue(reduceOverrideValue(a, b), c)`
as it evaluates in the source: the inner result is a bare array, hence untagged. -/
def reduceOverrideValueLeftNested {α : Type}
    (a b c : OptionalOverrideValue α) : List α :=
  reduceOverrideValue (.plain (reduceOverrideValue a b)) c

/-- The right-nested double merge `reduceOverrideValue(a, reduceOverrideValue(b, c))`
as it evaluates in the source: the inner result is a bare array, hence untagged. -/
def reduceOverrideValueRightNested {α : Type}
    (a b c : OptionalOverrideValue α) : List α :=
  reduceOverrideValue a (.plain (reduceOverrideValue b c))

/-! ## Safe tool invocation (`src/src/lib/runToolSafely.ts`) -/

/-- The observable outcome of `tool.invoke(args, config)`: it resolves with a
string, resolves with a non-string value, or rejects.  A rejection carries the
string rendering that the template literal would produce for the thrown
value. -/
inductive ToolInvokeResult where
  | str (s : String)
  | nonString (rendering : String)
  | thrown (error : String)
deriving DecidableEq, Repr

/-- The body of the `try` block of `runToolSafely`: a non-string resolution
throws `new Error('Tool returned non-string result')`, whose template
rendering is prefixed by `Error: `. -/
def runToolSafelyTryBlock : ToolInvokeResult → Except String String
  | .str s => .ok s
  | .nonString _ => .error "Error: Tool returned non-string result"
  | .thrown error => .error error

def runToolSafely (result : ToolInvokeResult) : String :=
  match runToolSafelyTryBlock result with
  | .ok s => s
  | .error error => "Error executing tool: " ++ error

/-! ## Claims C1, C2, C9, C10 -/

/-- C1: for every current value `A` and incoming value `B` of an
override-merge list field, `reduceOverrideValue A B` equals the unwrapped
payload of `B` when `B` is override-tagged (regardless of `A`), and equals
the unwrap of `A` concatenated with `B` (order-preserving, no dedup) when
`B` is untagged. -/
theorem reduceOverrideValue_merge_law {α : Type}
    (A : OptionalOverrideValue α) (b : List α) :
    reduceOverrideValue A (.override b) = b ∧
    reduceOverrideValue A (.plain b) = getOverrideValue A ++ b := by
  constructor <;> rfl

/-- C2 counterexample: `reduceOverrideValue` is not associative.  With
`a = plain ["x"]`, `b = plain []` and `c = override []`, the left-nested
merge discards `"x"` (the override wins) while the right-nested merge keeps
it (the inner merge strips the override tag before `a` is consulted). -/
theorem reduceOverrideValue_not_associative :
    reduceOverrideValueLeftNested
        (OptionalOverrideValue.plain ["x"]) (OptionalOverrideValue.plain [])
        (OptionalOverrideValue.override []) ≠
      reduceOverrideValueRightNested
        (OptionalOverrideValue.plain ["x"]) (OptionalOverrideValue.plain [])
        (OptionalOverrideValue.override []) := by
  decide

/-- C2 amended: the override-merge is associative on untagged incoming
values: for every current value `a` and plain incoming lists `b`, `c`, the
two nestings agree (both reduce to concatenation). -/
theorem reduceOverrideValue_assoc_of_plain {α : Type}
    (a : OptionalOverrideValue α) (b c : List α) :
    reduceOverrideValueLeftNested a (.plain b) (.plain c) =
      reduceOverrideValueRightNested a (.plain b) (.plain c) := by
  cases a <;>
    simp [reduceOverrideValueLeftNested, reduceOverrideValueRightNested,
      reduceOverrideValue, getOverrideValue]

/-- C9: whenever the underlying tool invocation throws, `runToolSafely`
returns the string `Error executing tool: <message>` built from the thrown
error; it is a total function into `String`, so the exception is never
propagated to the caller. -/
theorem runToolSafely_catches_errors (error : String) :
    runToolSafely (.thrown error) = "Error executing tool: " ++ error := by
  rfl

/-- C10 (implicit): when the tool resolves with a non-string value,
`runToolSafely` does not return that value; it returns the error string
produced from the internally thrown `Tool returned non-string result`
error, so `runToolSafely` yields a string on every input. -/
theorem runToolSafely_nonString_result (rendering : String) :
    runToolSafely (.nonString rendering) =
      "Error executing tool: Error: Tool returned non-string result" := by
  rfl

/-! ## Shared helpers of the graphs -/

/-- `src/src/lib/getNotesFromToolCalls.ts`: the bodies of all tool-result
messages, in history order. -/
def getNotesFromToolCalls (messages : List Message) : List String :=
  (messages.filter isToolMessage).map Message.content

/-- `src/unnamed/part_004`: removes all messages after the last AI message,
including the AI message itself; the history is unchanged when it contains
no AI message.  `removeAfterLastAiMessageAux messages i` is the source loop
with descending index `i - 1`. -/
def removeAfterLastAiMessageAux (messages : List Message) : Nat → List Message
  | 0 => messages
  | i + 1 =>
    if isAIMessage (messages.getD i default) then messages.take i
    else removeAfterLastAiMessageAux messages i

def removeAfterLastAiMessage (messages : List Message) : List Message :=
  removeAfterLastAiMessageAux messages messages.length

/-- The pre-classified outcome of one model-gateway invocation (§6/§7): a
success carrying the response text, or a failure classified as
token-limit-exceeded or other.  Failure payloads carry the template
rendering of the thrown error. -/
inductive InvokeOutcome where
  | success (content : String)
  | errorTokenLimit (message : String)
  | errorOther (message : String)
deriving DecidableEq, Repr

/-- Modelled from the spec: `prompts.ts` is not under `src/`; §4.4 only says
the compressing step appends "a fixed \x22please summarize\x22 instruction",
so the constant is an arbitrary fixed string. -/
def compressResearchSimpleHumanMessage : String :=
  "Please summarize the research findings from the messages above."

def humanMessage (content : String) : Message :=
  { role := .human, content := content, toolCalls := [], name := none, toolCallId := none }

/-! ## Researcher sub-workflow (`src/src/graphs/researcher.ts`) -/

def researchCompleteToolName : String := "researchComplete"

/-- The model response appended at a `researcher` node: text plus requested
tool calls. -/
structure AIResponse where
  content : String
  toolCalls : List ToolCall
deriving Repr

structure ResearcherConfig where
  maxReactToolCalls : Nat
  /-- The research-tier model: history in, AI response out. -/
  respond : List Message → AIResponse
  /-- The outcome of `tool.invoke` for one requested call (fed through
  `runToolSafely`). -/
  toolOutcome : ToolCall → ToolInvokeResult
  /-- The compression-tier model as invoked at synthesis attempt `n` with
  the current (possibly pruned) history. -/
  compressInvoke : Nat → List Message → InvokeOutcome

structure ResearcherState where
  researcherMessages : List Message
  toolCallIterations : Nat
  researchTopic : String
  compressedResearch : String
  rawNotes : List String
deriving DecidableEq, Repr

inductive RNode where
  | researcher
  | researcherTools
  | compressResearch
  | done
deriving DecidableEq, Repr

/-- The `researcher` node: invoke the research model on the accumulated
history, append the response, increment the iteration counter, and go to
`researcherTools`. -/
def researcherNode (cfg : ResearcherConfig) (s : ResearcherState) :
    RNode × ResearcherState :=
  let response := cfg.respond s.researcherMessages
  (RNode.researcherTools,
    { s with
      researcherMessages :=
        reduceOverrideValue (.plain s.researcherMessages)
          (.plain [aiMessage response.content response.toolCalls]),
      toolCallIterations := s.toolCallIterations + 1 })

/-- Builds the tool-result messages of `researcherTools`, in call order; a
call without an id throws `Missing tool call ID`. -/
def buildToolOutputs (toolOutcome : ToolCall → ToolInvokeResult) :
    List ToolCall → Except String (List Message)
  | [] => .ok []
  | toolCall :: rest =>
    match toolCall.id with
    | none => .error "Missing tool call ID"
    | some id =>
      (buildToolOutputs toolOutcome rest).map
        (fun tail =>
          mkToolMessage (runToolSafely (toolOutcome toolCall)) toolCall.name id :: tail)

/-- The `researcherTools` node: with no pending tool calls go straight to
`compressResearch`; otherwise execute every call safely, append the results,
and continue to `compressResearch` when the iteration counter has reached
`maxReactToolCalls` or `researchComplete` was called, else loop back to
`researcher`. -/
def researcherToolsNode (cfg : ResearcherConfig) (s : ResearcherState) :
    Except String (RNode × ResearcherState) :=
  match s.researcherMessages.getLast? with
  | none => .error "No messages in state"
  | some lastMessage =>
    if isAIMessage lastMessage then
      let toolCalls := lastMessage.toolCalls
      if toolCalls.isEmpty then .ok (RNode.compressResearch, s)
      else
        (buildToolOutputs cfg.toolOutcome toolCalls).map (fun toolOutputs =>
          let didExceedToolCallIterations :=
            decide (s.toolCallIterations ≥ cfg.maxReactToolCalls)
          let didCallResearchCompleteTool :=
            toolCalls.any (fun tc => tc.name == researchCompleteToolName)
          ((if didExceedToolCallIterations || didCallResearchCompleteTool
             then RNode.compressResearch else RNode.researcher),
           { s with
             researcherMessages :=
               reduceOverrideValue (.plain s.researcherMessages)
                 (.plain toolOutputs) }))
    else .error "Most recent message is not an AI message"

/-- The raw-notes body assembled by `getNote` in `compressResearch`: the
tool and AI message bodies of the current history joined by newlines. -/
def getNote (researcherMessages : List Message) : String :=
  String.intercalate "\n"
    ((researcherMessages.filter (fun m => isToolMessage m || isAIMessage m)).map
      Message.content)

def compressMaxRetriesSentinel : String :=
  "Error synthesizing research report: Maximum retries exceeded"

structure CompressOutput where
  compressedResearch : String
  rawNotes : OptionalOverrideValue String
deriving DecidableEq, Repr

/-- The retry loop of `compressResearch`: `fuel` is the number of synthesis
attempts still allowed (the source loop runs `synthesisAttempt` from 0 to 2,
so the loop is entered with `fuel = 3`); a token-limit failure prunes the
history with `removeAfterLastAiMessage` before retrying, any other failure
retries on the unchanged history, and exhausted attempts return the fixed
sentinel. -/
def compressLoop (compressInvoke : Nat → List Message → InvokeOutcome) :
    Nat → Nat → List Message → CompressOutput
  | 0, _, researcherMessages =>
    { compressedResearch := compressMaxRetriesSentinel,
      rawNotes := .override [getNote researcherMessages] }
  | fuel + 1, synthesisAttempt, researcherMessages =>
    match compressInvoke synthesisAttempt researcherMessages with
    | .success content =>
      { compressedResearch := content,
        rawNotes := .override [getNote researcherMessages] }
    | .errorTokenLimit _ =>
      compressLoop compressInvoke fuel (synthesisAttempt + 1)
        (removeAfterLastAiMessage researcherMessages)
    | .errorOther _ =>
      compressLoop compressInvoke fuel (synthesisAttempt + 1) researcherMessages

/-- The number of compression-model invocations the loop performs. -/
def compressLoopInvocations (compressInvoke : Nat → List Message → InvokeOutcome) :
    Nat → Nat → List Message → Nat
  | 0, _, _ => 0
  | fuel + 1, synthesisAttempt, researcherMessages =>
    1 + match compressInvoke synthesisAttempt researcherMessages with
        | .success _ => 0
        | .errorTokenLimit _ =>
          compressLoopInvocations compressInvoke fuel (synthesisAttempt + 1)
            (removeAfterLastAiMessage researcherMessages)
        | .errorOther _ =>
          compressLoopInvocations compressInvoke fuel (synthesisAttempt + 1)
            researcherMessages

/-- The history as it stands when the loop stops (after the pruning steps
the failures forced). -/
def compressFinalMessages (compressInvoke : Nat → List Message → InvokeOutcome) :
    Nat → Nat → List Message → List Message
  | 0, _, researcherMessages => researcherMessages
  | fuel + 1, synthesisAttempt, researcherMessages =>
    match compressInvoke synthesisAttempt researcherMessages with
    | .success _ => researcherMessages
    | .errorTokenLimit _ =>
      compressFinalMessages compressInvoke fuel (synthesisAttempt + 1)
        (removeAfterLastAiMessage researcherMessages)
    | .errorOther _ =>
      compressFinalMessages compressInvoke fuel (synthesisAttempt + 1)
        researcherMessages

/-- The `compressResearch` node body: append the fixed summarize
instruction, then run up to 3 synthesis attempts. -/
def compressResearch (compressInvoke : Nat → List Message → InvokeOutcome)
    (stateMessages : List Message) : CompressOutput :=
  compressLoop compressInvoke 3 0
    (stateMessages ++ [humanMessage compressResearchSimpleHumanMessage])

def compressResearchInvocations (compressInvoke : Nat → List Message → InvokeOutcome)
    (stateMessages : List Message) : Nat :=
  compressLoopInvocations compressInvoke 3 0
    (stateMessages ++ [humanMessage compressResearchSimpleHumanMessage])

/-- The `compressResearch` node in the machine: record its output in the
state (the raw-notes update is override-tagged, so it replaces). -/
def compressResearchNode (cfg : ResearcherConfig) (s : ResearcherState) :
    RNode × ResearcherState :=
  let out := compressResearch cfg.compressInvoke s.researcherMessages
  (RNode.done,
    { s with
      compressedResearch := out.compressedResearch,
      rawNotes := reduceOverrideValue (.plain s.rawNotes) out.rawNotes })

def researcherMachineStep (cfg : ResearcherConfig) :
    RNode × ResearcherState → Except String (RNode × ResearcherState)
  | (.researcher, s) => .ok (researcherNode cfg s)
  | (.researcherTools, s) => researcherToolsNode cfg s
  | (.compressResearch, s) => .ok (compressResearchNode cfg s)
  | (.done, s) => .ok (.done, s)

/-- `n` executions of the researcher machine from a node/state pair. -/
def runResearcher (cfg : ResearcherConfig) :
    Nat → RNode × ResearcherState → Except String (RNode × ResearcherState)
  | 0, p => .ok p
  | n + 1, p => (researcherMachineStep cfg p).bind (runResearcher cfg n)

theorem runResearcher_add (cfg : ResearcherConfig) (m n : Nat)
    (p : RNode × ResearcherState) :
    runResearcher cfg (m + n) p =
      (runResearcher cfg m p).bind (runResearcher cfg n) := by
  induction m generalizing p with
  | zero => simp [runResearcher, Except.bind]
  | succ m ih =>
    have hmn : m + 1 + n = (m + n) + 1 := by omega
    rw [hmn]
    simp only [runResearcher]
    cases researcherMachineStep cfg p with
    | error e => simp [Except.bind]
    | ok q => simpa [Except.bind] using ih q

theorem buildToolOutputs_eq_ok (f : ToolCall → ToolInvokeResult)
    (l : List ToolCall) (h : ∀ tc ∈ l, tc.id.isSome) :
    buildToolOutputs f l =
      .ok (l.map (fun tc =>
        mkToolMessage (runToolSafely (f tc)) tc.name (tc.id.getD ""))) := by
  induction l with
  | nil => rfl
  | cons tc rest ih =>
    obtain ⟨id, hid⟩ := Option.isSome_iff_exists.mp (h tc (by simp))
    have hrest := ih (fun x hx => h x (by simp [hx]))
    simp [buildToolOutputs, hid, hrest, Except.map]

/-- An adversarial model: every response carries at least one tool call,
none of them the `researchComplete` sentinel, all with ids. -/
def AdversarialResearchModel (cfg : ResearcherConfig) : Prop :=
  (∀ msgs, (cfg.respond msgs).toolCalls ≠ []) ∧
  (∀ msgs tc, tc ∈ (cfg.respond msgs).toolCalls →
    tc.name ≠ researchCompleteToolName) ∧
  (∀ msgs tc, tc ∈ (cfg.respond msgs).toolCalls → tc.id.isSome)

theorem researcherPairStep (cfg : ResearcherConfig)
    (hAdv : AdversarialResearchModel cfg) (s : ResearcherState) :
    ∃ s', runResearcher cfg 2 (RNode.researcher, s) =
        .ok ((if cfg.maxReactToolCalls ≤ s.toolCallIterations + 1
              then RNode.compressResearch else RNode.researcher), s') ∧
      s'.toolCallIterations = s.toolCallIterations + 1 := by
  obtain ⟨hA, hB, hC⟩ := hAdv
  set response := cfg.respond s.researcherMessages with hresp
  set s1 : ResearcherState :=
    { s with
      researcherMessages :=
        s.researcherMessages ++ [aiMessage response.content response.toolCalls],
      toolCallIterations := s.toolCallIterations + 1 } with hs1
  have hstep1 : researcherMachineStep cfg (RNode.researcher, s) =
      .ok (RNode.researcherTools, s1) := by
    simp [researcherMachineStep, researcherNode, reduceOverrideValue,
      getOverrideValue, hs1, hresp]
  have hlast : s1.researcherMessages.getLast? =
      some (aiMessage response.content response.toolCalls) := by
    simp [hs1]
  have hne : response.toolCalls.isEmpty = false := by
    cases hcalls : response.toolCalls with
    | nil => exact absurd (hresp ▸ hcalls) (hA s.researcherMessages)
    | cons a l => simp [List.isEmpty]
  have hids : ∀ tc ∈ response.toolCalls, tc.id.isSome := fun tc htc =>
    hC s.researcherMessages tc (hresp ▸ htc)
  have hnoComplete :
      response.toolCalls.any (fun tc => tc.name == researchCompleteToolName) =
        false := by
    rw [List.any_eq_false]
    intro tc htc
    simpa using hB s.researcherMessages tc (hresp ▸ htc)
  have houts := buildToolOutputs_eq_ok cfg.toolOutcome response.toolCalls hids
  set s2 : ResearcherState :=
    { s1 with
      researcherMessages :=
        s1.researcherMessages ++
          response.toolCalls.map (fun tc =>
            mkToolMessage (runToolSafely (cfg.toolOutcome tc)) tc.name
              (tc.id.getD "")) } with hs2
  have hstep2 : researcherMachineStep cfg (RNode.researcherTools, s1) =
      .ok ((if cfg.maxReactToolCalls ≤ s.toolCallIterations + 1
            then RNode.compressResearch else RNode.researcher), s2) := by
    simp only [researcherMachineStep, researcherToolsNode, hlast]
    rw [if_pos (by simp [aiMessage, isAIMessage])]
    simp only [aiMessage, hne, Bool.false_eq_true, if_false, houts,
      Except.map, hnoComplete, Bool.or_false]
    have hcnt : s1.toolCallIterations = s.toolCallIterations + 1 := by simp [hs1]
    by_cases hle : cfg.maxReactToolCalls ≤ s.toolCallIterations + 1
    · rw [if_pos hle]
      simp [hcnt, hle, reduceOverrideValue, getOverrideValue, hs2, aiMessage]
    · rw [if_neg hle]
      simp [hcnt, hle, reduceOverrideValue, getOverrideValue, hs2, aiMessage]
  refine ⟨s2, ?_, by simp [hs2, hs1]⟩
  show (researcherMachineStep cfg (RNode.researcher, s)).bind
      (runResearcher cfg 1) = _
  rw [hstep1]
  show runResearcher cfg 1 (RNode.researcherTools, s1) = _
  show (researcherMachineStep cfg (RNode.researcherTools, s1)).bind
      (runResearcher cfg 0) = _
  rw [hstep2]
  rfl

theorem researcherRunEven (cfg : ResearcherConfig)
    (hAdv : AdversarialResearchModel cfg) (s0 : ResearcherState)
    (h0 : s0.toolCallIterations = 0) :
    ∀ N, N ≤ max cfg.maxReactToolCalls 1 →
      ∃ s, runResearcher cfg (2 * N) (RNode.researcher, s0) =
          .ok ((if N < max cfg.maxReactToolCalls 1
                then RNode.researcher else RNode.compressResearch), s) ∧
        s.toolCallIterations = N := by
  intro N
  induction N with
  | zero =>
    intro _
    refine ⟨s0, ?_, h0⟩
    rw [if_pos (by omega)]
    rfl
  | succ N ih =>
    intro hN
    obtain ⟨s, hrun, hcnt⟩ := ih (by omega)
    rw [if_pos (by omega)] at hrun
    obtain ⟨s', hpair, hcnt'⟩ := researcherPairStep cfg hAdv s
    refine ⟨s', ?_, by omega⟩
    have h2 : 2 * (N + 1) = 2 * N + 2 := by omega
    rw [h2, runResearcher_add cfg (2 * N) 2, hrun]
    show runResearcher cfg 2 (RNode.researcher, s) = _
    rw [hpair, hcnt]
    by_cases hge : cfg.maxReactToolCalls ≤ N + 1
    · rw [if_pos hge, if_neg (by omega)]
    · rw [if_neg hge, if_pos (by omega)]

/-- C3: in a researcher run started with `toolCallIterations = 0`, against a
model whose responses always contain tool calls (with ids) and never the
`researchComplete` sentinel: (a) after the Nth execution of the
`researcher` node (the Nth researching→executing-tools transition, i.e.
machine step `2*(N-1)+1`), the counter equals `N`; (b) the machine is in
the `compressResearch` state after `max maxReactToolCalls 1` react
round-trips (machine step `2 * max maxReactToolCalls 1`); (c) that number
of researching steps is at most `maxReactToolCalls + 1`. -/
theorem researcher_iteration_count_and_termination (cfg : ResearcherConfig)
    (s0 : ResearcherState) (h0 : s0.toolCallIterations = 0)
    (hAdv : AdversarialResearchModel cfg) :
    (∀ N, 1 ≤ N → N ≤ max cfg.maxReactToolCalls 1 →
      ∃ s, runResearcher cfg (2 * (N - 1) + 1) (RNode.researcher, s0) =
          .ok (RNode.researcherTools, s) ∧ s.toolCallIterations = N) ∧
    (∃ s, runResearcher cfg (2 * max cfg.maxReactToolCalls 1)
        (RNode.researcher, s0) = .ok (RNode.compressResearch, s)) ∧
    max cfg.maxReactToolCalls 1 ≤ cfg.maxReactToolCalls + 1 := by
  refine ⟨?_, ?_, by omega⟩
  · intro N h1 hN
    obtain ⟨s, hrun, hcnt⟩ :=
      researcherRunEven cfg hAdv s0 h0 (N - 1) (by omega)
    rw [if_pos (by omega)] at hrun
    refine ⟨{ s with
        researcherMessages := s.researcherMessages ++
          [aiMessage (cfg.respond s.researcherMessages).content
            (cfg.respond s.researcherMessages).toolCalls],
        toolCallIterations := s.toolCallIterations + 1 }, ?_,
      by show s.toolCallIterations + 1 = N; omega⟩
    rw [runResearcher_add cfg (2 * (N - 1)) 1, hrun]
    show (researcherMachineStep cfg (RNode.researcher, s)).bind
        (runResearcher cfg 0) = _
    simp [researcherMachineStep, researcherNode, reduceOverrideValue,
      getOverrideValue, runResearcher, Except.bind]
  · obtain ⟨s, hrun, _⟩ := researcherRunEven cfg hAdv s0 h0
      (max cfg.maxReactToolCalls 1) (by omega)
    rw [if_neg (by omega)] at hrun
    exact ⟨s, hrun⟩

def researcherWitnessConfig : ResearcherConfig :=
  { maxReactToolCalls := 2,
    respond := fun _ =>
      { content := "searching",
        toolCalls := [{ name := "search", args := "langgraph", id := some "call-1" }] },
    toolOutcome := fun _ => .str "search results",
    compressInvoke := fun _ _ => .success "summary" }

def researcherWitnessState : ResearcherState :=
  { researcherMessages := [humanMessage "topic"],
    toolCallIterations := 0,
    researchTopic := "topic",
    compressedResearch := "",
    rawNotes := [] }

theorem researcherWitnessConfig_adversarial :
    AdversarialResearchModel researcherWitnessConfig := by
  refine ⟨fun msgs => by simp [researcherWitnessConfig],
    fun msgs tc htc => ?_, fun msgs tc htc => ?_⟩
  · simp only [researcherWitnessConfig, List.mem_singleton] at htc
    subst htc
    decide
  · simp only [researcherWitnessConfig, List.mem_singleton] at htc
    subst htc
    decide

/-- Witness for C3 at a concrete adversarial model with
`maxReactToolCalls = 2`: after the 2nd researching step the counter is 2,
and step 4 of the machine is in the `compressResearch` state. -/
theorem researcher_iteration_count_and_termination_witness :
    (∃ s, runResearcher researcherWitnessConfig 3
        (RNode.researcher, researcherWitnessState) =
        .ok (RNode.researcherTools, s) ∧ s.toolCallIterations = 2) ∧
    (∃ s, runResearcher researcherWitnessConfig 4
        (RNode.researcher, researcherWitnessState) =
        .ok (RNode.compressResearch, s)) := by
  have h := researcher_iteration_count_and_termination researcherWitnessConfig
    researcherWitnessState rfl researcherWitnessConfig_adversarial
  exact ⟨h.1 2 (by decide) (by decide), h.2.1⟩

/-! ## Properties of `removeAfterLastAiMessage` and the compression loop -/

theorem removeAfterLastAiMessageAux_spec (l₁ : List Message) (a : Message)
    (l₂ : List Message) (ha : isAIMessage a = true)
    (h₂ : ∀ m ∈ l₂, isAIMessage m = false) :
    ∀ n, l₁.length < n → n ≤ (l₁ ++ a :: l₂).length →
      removeAfterLastAiMessageAux (l₁ ++ a :: l₂) n = l₁ := by
  intro n
  induction n with
  | zero => omega
  | succ i ih =>
    intro hlt hle
    by_cases hi : i = l₁.length
    · subst hi
      have hget : (l₁ ++ a :: l₂).getD l₁.length default = a := by
        rw [List.getD_eq_getElem?_getD,
          List.getElem?_append_right (le_refl _)]
        simp
      simp only [removeAfterLastAiMessageAux, hget, ha, if_true]
      exact List.take_left l₁ (a :: l₂)
    · have hgt : l₁.length < i := by omega
      have hilen : i < (l₁ ++ a :: l₂).length := by omega
      have hidx : i - l₁.length - 1 < l₂.length := by
        simp only [List.length_append, List.length_cons] at hilen
        omega
      have hnotAi : isAIMessage ((l₁ ++ a :: l₂).getD i default) = false := by
        rw [List.getD_eq_getElem?_getD,
          List.getElem?_append_right (by omega : l₁.length ≤ i)]
        set j := i - l₁.length - 1 with hjdef
        have hj : i - l₁.length = j + 1 := by omega
        rw [hj, List.getElem?_cons_succ, List.getElem?_eq_getElem hidx]
        simp only [Option.getD_some]
        exact h₂ _ (List.getElem_mem hidx)
      simp only [removeAfterLastAiMessageAux, hnotAi, Bool.false_eq_true,
        if_false]
      exact ih (by omega) (by omega)

/-- `removeAfterLastAiMessage` prunes the history back to — and excluding —
its most recent AI-authored message, and leaves an AI-free history
unchanged. -/
theorem removeAfterLastAiMessage_spec :
    (∀ (l₁ : List Message) (a : Message) (l₂ : List Message),
      isAIMessage a = true → (∀ m ∈ l₂, isAIMessage m = false) →
      removeAfterLastAiMessage (l₁ ++ a :: l₂) = l₁) ∧
    (∀ l : List Message, (∀ m ∈ l, isAIMessage m = false) →
      removeAfterLastAiMessage l = l) := by
  constructor
  · intro l₁ a l₂ ha h₂
    exact removeAfterLastAiMessageAux_spec l₁ a l₂ ha h₂ _
      (by simp [List.length_append]) (le_refl _)
  · intro l hl
    suffices h : ∀ n, n ≤ l.length → removeAfterLastAiMessageAux l n = l by
      exact h l.length (le_refl _)
    intro n
    induction n with
    | zero => intro _; rfl
    | succ i ih =>
      intro hle
      have hmem : l.getD i default ∈ l := by
        rw [List.getD_eq_getElem?_getD, List.getElem?_eq_getElem (by omega)]
        exact List.getElem_mem (by omega)
      simp only [removeAfterLastAiMessageAux, hl _ hmem, Bool.false_eq_true,
        if_false]
      exact ih (by omega)

theorem compressLoopInvocations_le (compressInvoke : Nat → List Message → InvokeOutcome) :
    ∀ fuel attempt msgs,
      compressLoopInvocations compressInvoke fuel attempt msgs ≤ fuel := by
  intro fuel
  induction fuel with
  | zero => intro _ _; simp [compressLoopInvocations]
  | succ fuel ih =>
    intro attempt msgs
    simp only [compressLoopInvocations]
    cases compressInvoke attempt msgs with
    | success c =>
      show 1 + 0 ≤ fuel + 1
      omega
    | errorTokenLimit e =>
      have := ih (attempt + 1) (removeAfterLastAiMessage msgs)
      show 1 + compressLoopInvocations compressInvoke fuel (attempt + 1)
          (removeAfterLastAiMessage msgs) ≤ fuel + 1
      omega
    | errorOther e =>
      have := ih (attempt + 1) msgs
      show 1 + compressLoopInvocations compressInvoke fuel (attempt + 1) msgs ≤
          fuel + 1
      omega

theorem compressLoop_rawNotes (compressInvoke : Nat → List Message → InvokeOutcome) :
    ∀ fuel attempt msgs,
      (compressLoop compressInvoke fuel attempt msgs).rawNotes =
        .override [getNote (compressFinalMessages compressInvoke fuel attempt msgs)] := by
  intro fuel
  induction fuel with
  | zero => intro _ _; rfl
  | succ fuel ih =>
    intro attempt msgs
    simp only [compressLoop, compressFinalMessages]
    cases compressInvoke attempt msgs with
    | success c => rfl
    | errorTokenLimit e => exact ih (attempt + 1) (removeAfterLastAiMessage msgs)
    | errorOther e => exact ih (attempt + 1) msgs

theorem compressLoop_all_fail (compressInvoke : Nat → List Message → InvokeOutcome)
    (hfail : ∀ attempt msgs content,
      compressInvoke attempt msgs ≠ .success content) :
    ∀ fuel attempt msgs,
      (compressLoop compressInvoke fuel attempt msgs).compressedResearch =
        compressMaxRetriesSentinel := by
  intro fuel
  induction fuel with
  | zero => intro _ _; rfl
  | succ fuel ih =>
    intro attempt msgs
    simp only [compressLoop]
    cases hc : compressInvoke attempt msgs with
    | success c => exact absurd hc (hfail attempt msgs c)
    | errorTokenLimit e => exact ih (attempt + 1) (removeAfterLastAiMessage msgs)
    | errorOther e => exact ih (attempt + 1) msgs

/-- C7: the `compressResearch` step (a total function in this embedding —
it never raises): (1) it invokes the compression model at most 3 times;
(2) a token-limit-classified failure makes the next attempt run on the
history pruned by `removeAfterLastAiMessage`, any other failure retries on
the unchanged history; (3) `removeAfterLastAiMessage` removes everything
from the most recent AI message on; (4) if all attempts fail the
compressed result is the fixed maximum-retries sentinel; (5) in every case
the raw-notes artifact is override-tagged and is built (by `getNote`) from
the tool and AI message bodies of the history as it stands when the loop
stops. -/
theorem compressResearch_retry_policy
    (compressInvoke : Nat → List Message → InvokeOutcome)
    (stateMessages : List Message) :
    compressResearchInvocations compressInvoke stateMessages ≤ 3 ∧
    (∀ fuel attempt msgs e,
      compressInvoke attempt msgs = .errorTokenLimit e →
      compressLoop compressInvoke (fuel + 1) attempt msgs =
        compressLoop compressInvoke fuel (attempt + 1)
          (removeAfterLastAiMessage msgs)) ∧
    (∀ fuel attempt msgs e,
      compressInvoke attempt msgs = .errorOther e →
      compressLoop compressInvoke (fuel + 1) attempt msgs =
        compressLoop compressInvoke fuel (attempt + 1) msgs) ∧
    (∀ (l₁ : List Message) (a : Message) (l₂ : List Message),
      isAIMessage a = true → (∀ m ∈ l₂, isAIMessage m = false) →
      removeAfterLastAiMessage (l₁ ++ a :: l₂) = l₁) ∧
    ((∀ attempt msgs content,
        compressInvoke attempt msgs ≠ .success content) →
      (compressResearch compressInvoke stateMessages).compressedResearch =
        compressMaxRetriesSentinel) ∧
    (compressResearch compressInvoke stateMessages).rawNotes =
      .override [getNote (compressFinalMessages compressInvoke 3 0
        (stateMessages ++ [humanMessage compressResearchSimpleHumanMessage]))] := by
  refine ⟨compressLoopInvocations_le compressInvoke 3 0 _,
    fun fuel attempt msgs e he => ?_, fun fuel attempt msgs e he => ?_,
    removeAfterLastAiMessage_spec.1,
    fun hfail => compressLoop_all_fail compressInvoke hfail 3 0 _,
    compressLoop_rawNotes compressInvoke 3 0 _⟩
  · simp only [compressLoop, he]
  · simp only [compressLoop, he]

def compressWitnessInvoke : Nat → List Message → InvokeOutcome :=
  fun _ _ => .errorTokenLimit "context length exceeded"

def compressWitnessMessages : List Message :=
  [humanMessage "topic", aiMessage "thinking" [],
   mkToolMessage "search results" "search" "call-1"]

/-- Witness for C7 at an always-token-limit compression model: at most 3
invocations happen, the first failure prunes the history, the run returns
the sentinel, and the raw notes are the override-tagged note of the
fully-pruned history. -/
theorem compressResearch_retry_policy_witness :
    compressResearchInvocations compressWitnessInvoke compressWitnessMessages ≤ 3 ∧
    compressLoop compressWitnessInvoke 3 0
        (compressWitnessMessages ++ [humanMessage compressResearchSimpleHumanMessage]) =
      compressLoop compressWitnessInvoke 2 1
        (removeAfterLastAiMessage
          (compressWitnessMessages ++ [humanMessage compressResearchSimpleHumanMessage])) ∧
    removeAfterLastAiMessage ([humanMessage "topic"] ++ aiMessage "thinking" [] ::
        [mkToolMessage "search results" "search" "call-1"]) =
      [humanMessage "topic"] ∧
    (compressResearch compressWitnessInvoke compressWitnessMessages).compressedResearch =
      compressMaxRetriesSentinel ∧
    (compressResearch compressWitnessInvoke compressWitnessMessages).rawNotes =
      .override [getNote (compressFinalMessages compressWitnessInvoke 3 0
        (compressWitnessMessages ++ [humanMessage compressResearchSimpleHumanMessage]))] := by
  have h := compressResearch_retry_policy compressWitnessInvoke compressWitnessMessages
  exact ⟨h.1, h.2.1 2 0 _ "context length exceeded" rfl,
    h.2.2.2.1 [humanMessage "topic"] (aiMessage "thinking" [])
      [mkToolMessage "search results" "search" "call-1"] (by decide) (by decide),
    h.2.2.2.2.1 (fun attempt msgs content => by
      simp [compressWitnessInvoke]),
    h.2.2.2.2.2⟩

/-! ## Supervisor sub-workflow (`src/src/graphs/supervisor.ts`) -/

def conductResearchName : String := "ConductResearch"

def researchCompleteSchemaName : String := "ResearchComplete"

/-- The rejection body synthesized for every overflow `ConductResearch`
call; it names the configured concurrency cap. -/
def overflowRejectionText (maxConcurrentResearchUnits : Nat) : String :=
  "Error: Did not run this research as you have already exceeded the maximum number of concurrent research units. Please try again with " ++
    toString maxConcurrentResearchUnits ++ " or fewer research units."

/-- What one dispatched researcher sub-workflow returns to the supervisor
(the fields of the researcher output state the supervisor reads). -/
structure ResearcherOutput where
  compressedResearch : String
  rawNotes : List String
deriving DecidableEq, Repr

structure SupervisorConfig where
  maxResearcherIterations : Nat
  maxConcurrentResearchUnits : Nat
  /-- The research-tier model bound to the two supervisor tools. -/
  respond : List Message → AIResponse
  /-- `researcherGraph.invoke` on a fresh state seeded with the call's
  `researchTopic`, zero iterations and override-empty raw notes; abstracted
  as a function of the topic. -/
  runResearcherSub : String → ResearcherOutput

structure SupervisorState where
  supervisorMessages : List Message
  researchBrief : String
  notes : List String
  researchIterations : Nat
  rawNotes : List String
deriving DecidableEq, Repr

inductive SNode where
  | supervisor
  | supervisorTools
  | done
deriving DecidableEq, Repr

/-- The `supervisor` node: invoke the model on the supervisor history,
append the response, increment the iteration counter. -/
def supervisorNode (cfg : SupervisorConfig) (s : SupervisorState) :
    SNode × SupervisorState :=
  let supervisorMessages := getOverrideValue (.plain s.supervisorMessages)
  let response := cfg.respond supervisorMessages
  (SNode.supervisorTools,
    { s with
      supervisorMessages :=
        reduceOverrideValue (.plain s.supervisorMessages)
          (.plain [aiMessage response.content response.toolCalls]),
      researchIterations := s.researchIterations + 1 })

/-- The terminal update of `supervisorTools`: collapse the tool-result
bodies into `notes` (an untagged update) and re-assert the brief. -/
def supervisorExitUpdate (s : SupervisorState)
    (supervisorMessages : List Message) : SNode × SupervisorState :=
  (SNode.done,
    { s with
      notes :=
        reduceOverrideValue (.plain s.notes)
          (.plain (getNotesFromToolCalls supervisorMessages)),
      researchBrief := s.researchBrief })

/-- The tool-result messages for the accepted `ConductResearch` prefix, in
call order: each carries the dispatched researcher's compressed research or
the fixed maximum-retries sentinel when that is empty, correlated by the
call id; a missing id throws. -/
def acceptedToolMessages (runResearcherSub : String → ResearcherOutput) :
    List ToolCall → Except String (List Message)
  | [] => .ok []
  | toolCall :: rest =>
    match toolCall.id with
    | none => .error "Missing tool call ID"
    | some id =>
      (acceptedToolMessages runResearcherSub rest).map (fun tail =>
        let observation := runResearcherSub toolCall.args
        mkToolMessage
          (if observation.compressedResearch ≠ "" then
            observation.compressedResearch
           else compressMaxRetriesSentinel)
          toolCall.name id :: tail)

/-- The rejection tool-result messages for the overflow suffix, in call
order, each correlated by its call id; a missing id throws. -/
def overflowToolMessages (maxConcurrentResearchUnits : Nat) :
    List ToolCall → Except String (List Message)
  | [] => .ok []
  | toolCall :: rest =>
    match toolCall.id with
    | none => .error "Missing tool call ID"
    | some id =>
      (overflowToolMessages maxConcurrentResearchUnits rest).map (fun tail =>
        mkToolMessage (overflowRejectionText maxConcurrentResearchUnits)
          conductResearchName id :: tail)

/-- The `supervisorTools` node.  Exit criteria first (iteration cap, no
tool calls, `ResearchComplete` called); otherwise the dispatch cycle: the
`ConductResearch` calls are split into the accepted prefix (first
`maxConcurrentResearchUnits` in response order) and the overflow suffix,
one researcher is run per accepted call, one tool message is synthesized
per accepted and per overflow call, and the concatenated raw notes are
appended.  A `Missing tool call ID` throw happens inside the source's
`try`, so it is caught and also leads to the terminal update; only the
not-an-AI-message check throws out of the node. -/
def supervisorToolsNode (cfg : SupervisorConfig) (s : SupervisorState) :
    Except String (SNode × SupervisorState) :=
  let supervisorMessages := getOverrideValue (.plain s.supervisorMessages)
  match supervisorMessages.getLast? with
  | none => .error "Most recent message is not an AI message"
  | some mostRecentMessage =>
    if isAIMessage mostRecentMessage then
      let researchIterations := s.researchIterations
      let toolCalls := mostRecentMessage.toolCalls
      let exceededAllowedIterations :=
        decide (researchIterations ≥ cfg.maxResearcherIterations)
      let noToolCalls := toolCalls.isEmpty
      let researchCompleteToolCall :=
        toolCalls.any (fun tc => tc.name == researchCompleteSchemaName)
      if exceededAllowedIterations || noToolCalls || researchCompleteToolCall
      then .ok (supervisorExitUpdate s supervisorMessages)
      else
        let allConductResearchCalls :=
          toolCalls.filter (fun tc => tc.name == conductResearchName)
        let conductResearchCalls :=
          allConductResearchCalls.take cfg.maxConcurrentResearchUnits
        let overflowConductResearchCalls :=
          allConductResearchCalls.drop cfg.maxConcurrentResearchUnits
        let toolResults :=
          conductResearchCalls.map (fun tc => cfg.runResearcherSub tc.args)
        match acceptedToolMessages cfg.runResearcherSub conductResearchCalls,
            overflowToolMessages cfg.maxConcurrentResearchUnits
              overflowConductResearchCalls with
        | .ok okMessages, .ok overflowMessages =>
          let rawNotesConcat :=
            String.intercalate "\n" (toolResults.map (fun observation =>
              String.intercalate "\n"
                (getOverrideValue (.plain observation.rawNotes))))
          .ok (SNode.supervisor,
            { s with
              supervisorMessages :=
                reduceOverrideValue (.plain s.supervisorMessages)
                  (.plain (okMessages ++ overflowMessages)),
              rawNotes :=
                reduceOverrideValue (.plain s.rawNotes)
                  (.plain [rawNotesConcat]) })
        | _, _ => .ok (supervisorExitUpdate s supervisorMessages)
    else .error "Most recent message is not an AI message"

def supervisorMachineStep (cfg : SupervisorConfig) :
    SNode × SupervisorState → Except String (SNode × SupervisorState)
  | (.supervisor, s) => .ok (supervisorNode cfg s)
  | (.supervisorTools, s) => supervisorToolsNode cfg s
  | (.done, s) => .ok (.done, s)

def runSupervisor (cfg : SupervisorConfig) :
    Nat → SNode × SupervisorState → Except String (SNode × SupervisorState)
  | 0, p => .ok p
  | n + 1, p => (supervisorMachineStep cfg p).bind (runSupervisor cfg n)

theorem supervisorToolsNode_inv (cfg : SupervisorConfig) (s : SupervisorState)
    (node : SNode) (s' : SupervisorState)
    (h : supervisorToolsNode cfg s = .ok (node, s')) :
    s'.researchIterations = s.researchIterations ∧
    s'.researchBrief = s.researchBrief ∧
    (node = SNode.supervisor →
      s.researchIterations < cfg.maxResearcherIterations ∧ s'.notes = s.notes) ∧
    (node = SNode.done →
      s'.notes = s.notes ++ getNotesFromToolCalls s.supervisorMessages ∧
      s'.supervisorMessages = s.supervisorMessages) ∧
    (node = SNode.supervisor ∨ node = SNode.done) := by
  simp only [supervisorToolsNode, getOverrideValue] at h
  split at h
  · exact absurd h (by simp)
  · split at h
    · split at h
      · -- exit criteria met
        simp only [supervisorExitUpdate, reduceOverrideValue, getOverrideValue,
          Except.ok.injEq, Prod.mk.injEq] at h
        obtain ⟨hnode, hs'⟩ := h
        subst hnode
        subst hs'
        simp
      · -- dispatch branch
        rename_i hexit
        split at h
        · -- both message builders succeeded: back to supervisor
          simp only [reduceOverrideValue, getOverrideValue, Except.ok.injEq,
            Prod.mk.injEq] at h
          obtain ⟨hnode, hs'⟩ := h
          subst hnode
          subst hs'
          have hiter : s.researchIterations < cfg.maxResearcherIterations := by
            simp only [Bool.or_eq_true, decide_eq_true_eq, not_or] at hexit
            omega
          simp [hiter]
        · -- a missing tool-call id was caught: terminal update
          simp only [supervisorExitUpdate, reduceOverrideValue,
            getOverrideValue, Except.ok.injEq, Prod.mk.injEq] at h
          obtain ⟨hnode, hs'⟩ := h
          subst hnode
          subst hs'
          simp
    · exact absurd h (by simp)

theorem supervisorNode_inv (cfg : SupervisorConfig) (s : SupervisorState) :
    (supervisorNode cfg s).1 = SNode.supervisorTools ∧
    (supervisorNode cfg s).2.researchIterations = s.researchIterations + 1 ∧
    (supervisorNode cfg s).2.researchBrief = s.researchBrief ∧
    (supervisorNode cfg s).2.notes = s.notes := by
  simp [supervisorNode]

/-- The invariant that bounds the supervisor iteration counter. -/
def SupervisorIterInv (cfg : SupervisorConfig) :
    SNode × SupervisorState → Prop
  | (node, s) =>
    s.researchIterations ≤ max cfg.maxResearcherIterations 1 ∧
    (node = SNode.supervisor →
      s.researchIterations = 0 ∨
      s.researchIterations < cfg.maxResearcherIterations)

theorem supervisorMachineStep_preserves_iterInv (cfg : SupervisorConfig)
    (p q : SNode × SupervisorState)
    (hstep : supervisorMachineStep cfg p = .ok q)
    (hp : SupervisorIterInv cfg p) : SupervisorIterInv cfg q := by
  obtain ⟨node, s⟩ := p
  cases node with
  | supervisor =>
    simp only [supervisorMachineStep, Except.ok.injEq] at hstep
    subst hstep
    obtain ⟨hle, hsup⟩ := hp
    have hdisj := hsup rfl
    constructor
    · simp only [supervisorNode]
      omega
    · intro hq
      exact absurd hq (by simp)
  | supervisorTools =>
    simp only [supervisorMachineStep] at hstep
    obtain ⟨node', s'⟩ := q
    obtain ⟨hiter, _, hsup, _, _⟩ := supervisorToolsNode_inv cfg s node' s' hstep
    obtain ⟨hle, _⟩ := hp
    constructor
    · omega
    · intro hq
      exact Or.inr (hiter ▸ (hsup hq).1)
  | done =>
    simp only [supervisorMachineStep, Except.ok.injEq] at hstep
    subst hstep
    exact hp

theorem runSupervisor_preserves_iterInv (cfg : SupervisorConfig) :
    ∀ n (p q : SNode × SupervisorState),
      runSupervisor cfg n p = .ok q →
      SupervisorIterInv cfg p → SupervisorIterInv cfg q := by
  intro n
  induction n with
  | zero =>
    intro p q h hp
    simp only [runSupervisor, Except.ok.injEq] at h
    exact h ▸ hp
  | succ n ih =>
    intro p q h hp
    simp only [runSupervisor] at h
    cases hstep : supervisorMachineStep cfg p with
    | error e => rw [hstep] at h; exact absurd h (by simp [Except.bind])
    | ok r =>
      rw [hstep] at h
      exact ih r q h
        (supervisorMachineStep_preserves_iterInv cfg p r hstep hp)

def supervisorZeroCapConfig : SupervisorConfig :=
  { maxResearcherIterations := 0,
    maxConcurrentResearchUnits := 1,
    respond := fun _ => { content := "done", toolCalls := [] },
    runResearcherSub := fun _ => { compressedResearch := "", rawNotes := [] } }

def supervisorZeroCapState : SupervisorState :=
  { supervisorMessages := [humanMessage "brief"],
    researchBrief := "brief",
    notes := [],
    researchIterations := 0,
    rawNotes := [] }

/-- C4 counterexample: the configuration schema (`z.number()`, no lower
bound) admits `maxResearcherIterations = 0`, and then the counter exceeds
the cap: the `supervisor` node increments before `supervisorTools` checks,
so after one machine step `researchIterations = 1 > 0`. -/
theorem supervisor_iterations_exceed_cap_counterexample :
    runSupervisor supervisorZeroCapConfig 1
        (SNode.supervisor, supervisorZeroCapState) =
      .ok (SNode.supervisorTools,
        { supervisorMessages := [humanMessage "brief", aiMessage "done" []],
          researchBrief := "brief",
          notes := [],
          researchIterations := 1,
          rawNotes := [] }) ∧
    supervisorZeroCapConfig.maxResearcherIterations < 1 := by
  exact ⟨rfl, by decide⟩

/-- C4 amended: in every supervisor run started with
`researchIterations = 0`, the counter never exceeds
`max maxResearcherIterations 1` at any reachable point; in particular,
whenever the configured `maxResearcherIterations` is at least 1 (as all
shipped defaults are), the counter never exceeds it. -/
theorem supervisor_iterations_bounded (cfg : SupervisorConfig)
    (s0 : SupervisorState) (h0 : s0.researchIterations = 0) :
    ∀ n node s, runSupervisor cfg n (SNode.supervisor, s0) = .ok (node, s) →
      s.researchIterations ≤ max cfg.maxResearcherIterations 1 ∧
      (1 ≤ cfg.maxResearcherIterations →
        s.researchIterations ≤ cfg.maxResearcherIterations) := by
  intro n node s h
  have hinv : SupervisorIterInv cfg (node, s) :=
    runSupervisor_preserves_iterInv cfg n _ _ h
      ⟨by omega, fun _ => Or.inl h0⟩
  obtain ⟨hle, _⟩ := hinv
  exact ⟨hle, fun h1 => by omega⟩

/-- Witness for C4 amended: with the default cap 3 and a model that always
answers with plain text, after three machine steps the counter is within
the bound. -/
theorem supervisor_iterations_bounded_witness :
    ∃ node s, runSupervisor
        { supervisorZeroCapConfig with maxResearcherIterations := 3 } 2
        (SNode.supervisor, supervisorZeroCapState) = .ok (node, s) ∧
      s.researchIterations ≤
        max ({ supervisorZeroCapConfig with
          maxResearcherIterations := 3 } : SupervisorConfig).maxResearcherIterations 1 := by
  refine ⟨SNode.done,
    { supervisorMessages := [humanMessage "brief", aiMessage "done" []],
      researchBrief := "brief",
      notes := [],
      researchIterations := 1,
      rawNotes := [] }, rfl, ?_⟩
  exact (supervisor_iterations_bounded
    { supervisorZeroCapConfig with maxResearcherIterations := 3 }
    supervisorZeroCapState rfl 2 SNode.done _ rfl).1

/-- The invariant behind the terminal notes collapse: the brief never
changes, and `notes` stays empty until the terminal update writes the
collapsed tool-result bodies. -/
def SupervisorNotesInv (brief : String) : SNode × SupervisorState → Prop
  | (node, s) =>
    s.researchBrief = brief ∧
    (node = SNode.done →
      s.notes = getNotesFromToolCalls s.supervisorMessages) ∧
    (node ≠ SNode.done → s.notes = [])

theorem supervisorMachineStep_preserves_notesInv (cfg : SupervisorConfig)
    (brief : String) (p q : SNode × SupervisorState)
    (hstep : supervisorMachineStep cfg p = .ok q)
    (hp : SupervisorNotesInv brief p) : SupervisorNotesInv brief q := by
  obtain ⟨node, s⟩ := p
  cases node with
  | supervisor =>
    simp only [supervisorMachineStep, Except.ok.injEq] at hstep
    subst hstep
    obtain ⟨hbrief, _, hnotes⟩ := hp
    exact ⟨by simpa [supervisorNode] using hbrief,
      fun hq => absurd hq (by simp [supervisorNode]),
      fun _ => by simpa [supervisorNode] using hnotes (by simp)⟩
  | supervisorTools =>
    simp only [supervisorMachineStep] at hstep
    obtain ⟨node', s'⟩ := q
    obtain ⟨_, hbrief, hsup, hdone, hcases⟩ :=
      supervisorToolsNode_inv cfg s node' s' hstep
    obtain ⟨hbrief0, _, hempty⟩ := hp
    have hempty' := hempty (by simp)
    refine ⟨hbrief ▸ hbrief0, fun hq => ?_, fun hq => ?_⟩
    · obtain ⟨hnotes', hmsgs'⟩ := hdone hq
      rw [hnotes', hempty', hmsgs']
      simp
    · rcases hcases with hsup' | hdone'
      · rw [(hsup hsup').2, hempty']
      · exact absurd hdone' hq
  | done =>
    simp only [supervisorMachineStep, Except.ok.injEq] at hstep
    subst hstep
    exact hp

theorem runSupervisor_preserves_notesInv (cfg : SupervisorConfig)
    (brief : String) :
    ∀ n (p q : SNode × SupervisorState),
      runSupervisor cfg n p = .ok q →
      SupervisorNotesInv brief p → SupervisorNotesInv brief q := by
  intro n
  induction n with
  | zero =>
    intro p q h hp
    simp only [runSupervisor, Except.ok.injEq] at h
    exact h ▸ hp
  | succ n ih =>
    intro p q h hp
    simp only [runSupervisor] at h
    cases hstep : supervisorMachineStep cfg p with
    | error e => rw [hstep] at h; exact absurd h (by simp [Except.bind])
    | ok r =>
      rw [hstep] at h
      exact ih r q h
        (supervisorMachineStep_preserves_notesInv cfg brief p r hstep hp)

def supervisorExitConfig : SupervisorConfig :=
  { maxResearcherIterations := 3,
    maxConcurrentResearchUnits := 1,
    respond := fun _ => { content := "all done", toolCalls := [] },
    runResearcherSub := fun _ => { compressedResearch := "", rawNotes := [] } }

def supervisorPriorNotesState : SupervisorState :=
  { supervisorMessages :=
      [mkToolMessage "y" conductResearchName "call-0", aiMessage "all done" []],
    researchBrief := "brief",
    notes := ["prior"],
    researchIterations := 1,
    rawNotes := [] }

/-- C6 counterexample: the terminal notes update is untagged, so the
override-merge reducer appends instead of replacing.  At a state whose
`notes` already holds `["prior"]` and whose history holds one tool-result
body `"y"`, the terminal step produces `["prior", "y"]`, not the fresh
snapshot `["y"]` the claim asserts. -/
theorem supervisor_terminal_notes_counterexample :
    supervisorToolsNode supervisorExitConfig supervisorPriorNotesState =
      .ok (SNode.done,
        { supervisorPriorNotesState with notes := ["prior", "y"] }) ∧
    (["prior", "y"] : List String) ≠ ["y"] := by
  exact ⟨rfl, by decide⟩

/-- C6 amended: the terminal notes update is the untagged list of all
tool-result bodies in the supervisor history, merged by append under the
override-merge reducer; because a supervisor run starts with empty `notes`
(the channel default) and never writes the field before terminating, the
final `notes` equal exactly those bodies, and the research brief is
propagated unchanged. -/
theorem supervisor_terminal_notes (cfg : SupervisorConfig)
    (s0 : SupervisorState) (hnotes : s0.notes = []) :
    ∀ n s, runSupervisor cfg n (SNode.supervisor, s0) = .ok (SNode.done, s) →
      s.notes = getNotesFromToolCalls s.supervisorMessages ∧
      s.researchBrief = s0.researchBrief := by
  intro n s h
  have hinv : SupervisorNotesInv s0.researchBrief (SNode.done, s) :=
    runSupervisor_preserves_notesInv cfg s0.researchBrief n _ _ h
      ⟨rfl, fun hq => absurd hq (by simp), fun _ => hnotes⟩
  exact ⟨hinv.2.1 rfl, hinv.1⟩

/-- Witness for C6 amended: a two-step run that terminates because the
model requested no tool calls; the terminal notes are exactly the
tool-result bodies of the history (here none) and the brief survives. -/
theorem supervisor_terminal_notes_witness :
    ∃ s, runSupervisor supervisorExitConfig 2
        (SNode.supervisor, supervisorZeroCapState) = .ok (SNode.done, s) ∧
      s.notes = getNotesFromToolCalls s.supervisorMessages ∧
      s.researchBrief = supervisorZeroCapState.researchBrief := by
  refine ⟨{ supervisorMessages := [humanMessage "brief", aiMessage "all done" []],
            researchBrief := "brief",
            notes := [],
            researchIterations := 1,
            rawNotes := [] }, rfl, ?_⟩
  exact supervisor_terminal_notes supervisorExitConfig supervisorZeroCapState
    rfl 2 _ rfl

theorem acceptedToolMessages_eq_ok (runResearcherSub : String → ResearcherOutput)
    (l : List ToolCall) (h : ∀ tc ∈ l, tc.id.isSome) :
    acceptedToolMessages runResearcherSub l =
      .ok (l.map (fun tc =>
        mkToolMessage
          (if (runResearcherSub tc.args).compressedResearch ≠ "" then
            (runResearcherSub tc.args).compressedResearch
           else compressMaxRetriesSentinel)
          tc.name (tc.id.getD ""))) := by
  induction l with
  | nil => rfl
  | cons tc rest ih =>
    obtain ⟨id, hid⟩ := Option.isSome_iff_exists.mp (h tc (by simp))
    have hrest := ih (fun x hx => h x (by simp [hx]))
    simp [acceptedToolMessages, hid, hrest, Except.map]

theorem overflowToolMessages_eq_ok (maxConcurrentResearchUnits : Nat)
    (l : List ToolCall) (h : ∀ tc ∈ l, tc.id.isSome) :
    overflowToolMessages maxConcurrentResearchUnits l =
      .ok (l.map (fun tc =>
        mkToolMessage (overflowRejectionText maxConcurrentResearchUnits)
          conductResearchName (tc.id.getD ""))) := by
  induction l with
  | nil => rfl
  | cons tc rest ih =>
    obtain ⟨id, hid⟩ := Option.isSome_iff_exists.mp (h tc (by simp))
    have hrest := ih (fun x hx => h x (by simp [hx]))
    simp [overflowToolMessages, hid, hrest, Except.map]

/-- C5: in a dispatching cycle that conducts research (exit criteria all
false), with every `ConductResearch` call carrying an id: the accepted
calls are exactly the first `maxConcurrentResearchUnits` `ConductResearch`
calls in response order (`take`), the rest the overflow suffix (`drop`);
each accepted call yields exactly one tool message correlated by its id,
carrying the dispatched researcher's compressed research or the fixed
maximum-retries sentinel when that is empty; each overflow call yields
exactly one rejection message correlated by its id; at most
`maxConcurrentResearchUnits` researchers are dispatched; and the rejection
text names the configured cap value. -/
theorem supervisor_dispatch_cycle (cfg : SupervisorConfig)
    (s : SupervisorState) (mostRecent : Message)
    (hlast : s.supervisorMessages.getLast? = some mostRecent)
    (hai : isAIMessage mostRecent = true)
    (hiter : s.researchIterations < cfg.maxResearcherIterations)
    (hsome : mostRecent.toolCalls ≠ [])
    (hnc : ∀ tc ∈ mostRecent.toolCalls, tc.name ≠ researchCompleteSchemaName)
    (hids : ∀ tc ∈ mostRecent.toolCalls,
      tc.name = conductResearchName → tc.id.isSome) :
    supervisorToolsNode cfg s = .ok (SNode.supervisor,
      { s with
        supervisorMessages := s.supervisorMessages ++
          (((mostRecent.toolCalls.filter
              (fun tc => tc.name == conductResearchName)).take
                cfg.maxConcurrentResearchUnits).map (fun tc =>
            mkToolMessage
              (if (cfg.runResearcherSub tc.args).compressedResearch ≠ "" then
                (cfg.runResearcherSub tc.args).compressedResearch
               else compressMaxRetriesSentinel)
              tc.name (tc.id.getD "")) ++
          ((mostRecent.toolCalls.filter
              (fun tc => tc.name == conductResearchName)).drop
                cfg.maxConcurrentResearchUnits).map (fun tc =>
            mkToolMessage (overflowRejectionText cfg.maxConcurrentResearchUnits)
              conductResearchName (tc.id.getD ""))),
        rawNotes := s.rawNotes ++
          [String.intercalate "\n"
            ((((mostRecent.toolCalls.filter
                (fun tc => tc.name == conductResearchName)).take
                  cfg.maxConcurrentResearchUnits).map (fun tc =>
              cfg.runResearcherSub tc.args)).map (fun observation =>
                String.intercalate "\n" observation.rawNotes))] }) ∧
    ((mostRecent.toolCalls.filter
        (fun tc => tc.name == conductResearchName)).take
          cfg.maxConcurrentResearchUnits).length ≤
      cfg.maxConcurrentResearchUnits ∧
    (∃ pre post, overflowRejectionText cfg.maxConcurrentResearchUnits =
      pre ++ (toString cfg.maxConcurrentResearchUnits ++ post)) := by
  have hfilterIds : ∀ tc ∈ mostRecent.toolCalls.filter
      (fun tc => tc.name == conductResearchName), tc.id.isSome := by
    intro tc htc
    rw [List.mem_filter] at htc
    exact hids tc htc.1 (by simpa using htc.2)
  have htakeIds : ∀ tc ∈ (mostRecent.toolCalls.filter
      (fun tc => tc.name == conductResearchName)).take
        cfg.maxConcurrentResearchUnits, tc.id.isSome :=
    fun tc htc => hfilterIds tc (List.take_subset _ _ htc)
  have hdropIds : ∀ tc ∈ (mostRecent.toolCalls.filter
      (fun tc => tc.name == conductResearchName)).drop
        cfg.maxConcurrentResearchUnits, tc.id.isSome :=
    fun tc htc => hfilterIds tc (List.drop_subset _ _ htc)
  have hempty : mostRecent.toolCalls.isEmpty = false := by
    cases hcalls : mostRecent.toolCalls with
    | nil => exact absurd hcalls hsome
    | cons a l => simp [List.isEmpty]
  have hnoComplete : (mostRecent.toolCalls.any
      (fun tc => tc.name == researchCompleteSchemaName)) = false := by
    rw [List.any_eq_false]
    intro tc htc
    simpa using hnc tc htc
  have hexceed : decide (s.researchIterations ≥ cfg.maxResearcherIterations) =
      false := by
    simp [hiter, Nat.not_le]
  refine ⟨?_, List.length_take_le _ _, ?_⟩
  · simp only [supervisorToolsNode, getOverrideValue, hlast]
    rw [if_pos hai]
    simp only [hexceed, hempty, hnoComplete, Bool.or_false, Bool.false_or,
      Bool.false_eq_true, if_false]
    rw [acceptedToolMessages_eq_ok cfg.runResearcherSub _ htakeIds,
      overflowToolMessages_eq_ok cfg.maxConcurrentResearchUnits _ hdropIds]
    simp only [reduceOverrideValue, getOverrideValue]
  · exact ⟨"Error: Did not run this research as you have already exceeded the maximum number of concurrent research units. Please try again with ",
      " or fewer research units.", rfl⟩

def supervisorDispatchConfig : SupervisorConfig :=
  { maxResearcherIterations := 3,
    maxConcurrentResearchUnits := 1,
    respond := fun _ => { content := "", toolCalls := [] },
    runResearcherSub := fun topic =>
      { compressedResearch := "findings about " ++ topic,
        rawNotes := ["raw " ++ topic] } }

def supervisorDispatchAIMessage : Message :=
  aiMessage "dispatching"
    [{ name := conductResearchName, args := "topic A", id := some "call-1" },
     { name := conductResearchName, args := "topic B", id := some "call-2" }]

def supervisorDispatchState : SupervisorState :=
  { supervisorMessages := [humanMessage "brief", supervisorDispatchAIMessage],
    researchBrief := "brief",
    notes := [],
    researchIterations := 1,
    rawNotes := [] }

/-- Witness for C5: two `ConductResearch` calls against a cap of 1 — the
first is dispatched and answered with its compressed research, the second
gets the rejection message naming the cap, both correlated by their ids. -/
theorem supervisor_dispatch_cycle_witness :
    supervisorToolsNode supervisorDispatchConfig supervisorDispatchState =
      .ok (SNode.supervisor,
        { supervisorDispatchState with
          supervisorMessages :=
            [humanMessage "brief", supervisorDispatchAIMessage,
             mkToolMessage "findings about topic A" conductResearchName "call-1",
             mkToolMessage (overflowRejectionText 1) conductResearchName "call-2"],
          rawNotes := ["raw topic A"] }) ∧
    (∃ pre post, overflowRejectionText
        supervisorDispatchConfig.maxConcurrentResearchUnits =
      pre ++ (toString
        supervisorDispatchConfig.maxConcurrentResearchUnits ++ post)) := by
  have h := supervisor_dispatch_cycle supervisorDispatchConfig
    supervisorDispatchState supervisorDispatchAIMessage rfl (by decide)
    (by decide) (by decide)
    (by intro tc htc
        simp only [supervisorDispatchState, supervisorDispatchAIMessage,
          aiMessage, List.mem_cons, List.mem_singleton] at htc
        rcases htc with h1 | h1 | h1
        · subst h1; decide
        · subst h1; decide
        · cases h1)
    (by intro tc htc _
        simp only [supervisorDispatchState, supervisorDispatchAIMessage,
          aiMessage, List.mem_cons, List.mem_singleton] at htc
        rcases htc with h1 | h1 | h1
        · subst h1; decide
        · subst h1; decide
        · cases h1)
  refine ⟨?_, h.2.2⟩
  rw [h.1]
  rfl

/-! ## Final report generation (`src/src/graphs/deepResearcher.ts`,
`finalReportGeneration`, with the `MODEL_TOKEN_LIMITS` table) -/

def MODEL_TOKEN_LIMITS : List (String × Nat) :=
  [("openai:gpt-4.1-mini", 1047576),
   ("openai:gpt-4.1-nano", 1047576),
   ("openai:gpt-4.1", 1047576),
   ("openai:gpt-4o-mini", 128000),
   ("openai:gpt-4o", 128000),
   ("openai:o4-mini", 200000),
   ("openai:o3-mini", 200000),
   ("openai:o3", 200000),
   ("openai:o3-pro", 200000),
   ("openai:o1", 200000),
   ("openai:o1-pro", 200000),
   ("anthropic:claude-opus-4", 200000),
   ("anthropic:claude-sonnet-4", 200000),
   ("anthropic:claude-3-7-sonnet", 200000),
   ("anthropic:claude-3-5-sonnet", 200000),
   ("anthropic:claude-3-5-haiku", 200000),
   ("google:gemini-1.5-pro", 2097152),
   ("google:gemini-1.5-flash", 1048576),
   ("google:gemini-pro", 32768),
   ("cohere:command-r-plus", 128000),
   ("cohere:command-r", 128000),
   ("cohere:command-light", 4096),
   ("cohere:command", 4096),
   ("mistral:mistral-large", 32768),
   ("mistral:mistral-medium", 32768),
   ("mistral:mistral-small", 32768),
   ("mistral:mistral-7b-instruct", 32768),
   ("ollama:codellama", 16384),
   ("ollama:llama2:70b", 4096),
   ("ollama:llama2:13b", 4096),
   ("ollama:llama2", 4096),
   ("ollama:mistral", 32768)]

/-- The record access `MODEL_TOKEN_LIMITS[finalReportModel]` of the
source: exact-key lookup, `none` when the model string is absent. -/
def modelTokenLimit (finalReportModel : String) : Option Nat :=
  MODEL_TOKEN_LIMITS.lookup finalReportModel

def unknownLimitMessage (error : String) : String :=
  "Error generating final report: Token limit exceeded, however, we could not determine the model\x27s maximum context length. Please update the model map in deepResearcher/utils.ts with this information. " ++
    error

/-- The state update returned by every non-success exit of
`finalReportGeneration`: the error report plus the override-cleared
`notes`. -/
structure FinalReportUpdate where
  final_report : String
  messages : List Message
  notes : OptionalOverrideValue String
deriving DecidableEq, Repr

/-- The `while (currentRetry <= maxRetries)` loop of
`finalReportGeneration` with `maxRetries = 3`: `fuel` counts the attempts
still allowed (`fuel = 4 - currentRetry`, so the loop is entered with
`fuel = 4`).  A success returns the report text, appends it to the
messages and override-clears `notes`; a token-limit failure on the first
attempt aborts with a descriptive error when the model has no entry in
`MODEL_TOKEN_LIMITS`, otherwise truncates `findings` to 4 characters per
token of the known limit; later token-limit failures truncate to 90% of
the current length (exact rational floor in this embedding); any other
failure aborts with an error report; exhausted attempts return the fixed
maximum-retries sentinel.  Every exit override-clears `notes`. -/
def finalReportLoop (invoke : Nat → String → InvokeOutcome)
    (finalReportModel : String) :
    Nat → Nat → String → FinalReportUpdate
  | 0, _, _ =>
    { final_report := "Error generating final report: Maximum retries exceeded",
      messages := [],
      notes := .override [] }
  | fuel + 1, currentRetry, findings =>
    match invoke currentRetry findings with
    | .success text =>
      { final_report := text,
        messages := [aiMessage text []],
        notes := .override [] }
    | .errorTokenLimit error =>
      if currentRetry == 0 then
        match modelTokenLimit finalReportModel with
        | none =>
          { final_report := unknownLimitMessage error,
            messages := [],
            notes := .override [] }
        | some modelLimit =>
          finalReportLoop invoke finalReportModel fuel (currentRetry + 1)
            (findings.take (modelLimit * 4))
      else
        finalReportLoop invoke finalReportModel fuel (currentRetry + 1)
          (findings.take (findings.length * 9 / 10))
    | .errorOther error =>
      { final_report := "Error generating final report: " ++ error,
        messages := [],
        notes := .override [] }

/-- The number of final-report model invocations the loop performs. -/
def finalReportLoopInvocations (invoke : Nat → String → InvokeOutcome)
    (finalReportModel : String) : Nat → Nat → String → Nat
  | 0, _, _ => 0
  | fuel + 1, currentRetry, findings =>
    1 + match invoke currentRetry findings with
        | .success _ => 0
        | .errorTokenLimit _ =>
          if currentRetry == 0 then
            match modelTokenLimit finalReportModel with
            | none => 0
            | some modelLimit =>
              finalReportLoopInvocations invoke finalReportModel fuel
                (currentRetry + 1) (findings.take (modelLimit * 4))
          else
            finalReportLoopInvocations invoke finalReportModel fuel
              (currentRetry + 1) (findings.take (findings.length * 9 / 10))
        | .errorOther _ => 0

/-- `finalReportGeneration`: join the notes into `findings` and run the
retry loop. -/
def finalReportGeneration (invoke : Nat → String → InvokeOutcome)
    (finalReportModel : String) (notes : List String) : FinalReportUpdate :=
  finalReportLoop invoke finalReportModel 4 0
    (String.intercalate "\n" (getOverrideValue (.plain notes)))

/-- C8: when every final-report invocation fails with a
token-limit-classified error and the final-report model has no entry in
`MODEL_TOKEN_LIMITS`, report generation terminates normally (the embedding
is a total function — nothing is thrown): the final report is the
descriptive unknown-limit error string, the `notes` update is
override-empty (so the merged notes are `[]` whatever they held before),
and exactly one model invocation happens — no truncation by a guessed
limit is ever attempted. -/
theorem finalReport_unknown_limit_degrades
    (invoke : Nat → String → InvokeOutcome) (finalReportModel : String)
    (notes : List String)
    (hfail : ∀ currentRetry findings, ∃ error,
      invoke currentRetry findings = .errorTokenLimit error)
    (hunknown : modelTokenLimit finalReportModel = none) :
    (∃ error, finalReportGeneration invoke finalReportModel notes =
      { final_report := unknownLimitMessage error,
        messages := [],
        notes := .override [] }) ∧
    (∀ current : List String,
      reduceOverrideValue (.plain current)
        (finalReportGeneration invoke finalReportModel notes).notes = []) ∧
    finalReportLoopInvocations invoke finalReportModel 4 0
      (String.intercalate "\n" (getOverrideValue (.plain notes))) = 1 := by
  obtain ⟨error, herr⟩ :=
    hfail 0 (String.intercalate "\n" (getOverrideValue (.plain notes)))
  have hrun : finalReportGeneration invoke finalReportModel notes =
      { final_report := unknownLimitMessage error,
        messages := [],
        notes := .override [] } := by
    simp [finalReportGeneration, finalReportLoop, herr, hunknown]
  refine ⟨⟨error, hrun⟩, fun current => ?_, ?_⟩
  · rw [hrun]
    rfl
  · simp [finalReportLoopInvocations, herr, hunknown]

def finalReportWitnessInvoke : Nat → String → InvokeOutcome :=
  fun _ _ => .errorTokenLimit "400 prompt is too long"

/-- Witness for C8 at a model string absent from `MODEL_TOKEN_LIMITS` and
an always-token-limit gateway. -/
theorem finalReport_unknown_limit_degrades_witness :
    (∃ error, finalReportGeneration finalReportWitnessInvoke
        "anthropic:claude-unreleased" ["note one", "note two"] =
      { final_report := unknownLimitMessage error,
        messages := [],
        notes := .override [] }) ∧
    reduceOverrideValue (.plain ["stale note"])
      (finalReportGeneration finalReportWitnessInvoke
        "anthropic:claude-unreleased" ["note one", "note two"]).notes = [] ∧
    finalReportLoopInvocations finalReportWitnessInvoke
      "anthropic:claude-unreleased" 4 0
      (String.intercalate "\n"
        (getOverrideValue (.plain ["note one", "note two"]))) = 1 := by
  have h := finalReport_unknown_limit_degrades finalReportWitnessInvoke
    "anthropic:claude-unreleased" ["note one", "note two"]
    (fun currentRetry findings => ⟨"400 prompt is too long", rfl⟩)
    (by decide)
  exact ⟨h.1, h.2.1 ["stale note"], h.2.2⟩
